import Mathlib

/-!
Shallow embedding of `durationcheck` (src/durationcheck.go).

The analyzer flags multiplication of two `time.Duration`-typed operands.
We embed the Go source faithfully:

* Go AST expression nodes become the inductive `Expr`; the variants the
  source dispatches on (`*ast.BasicLit`, `*ast.BinaryExpr`, `*ast.CallExpr`,
  `*ast.SelectorExpr`, `*ast.Ident`) are constructors, and `Expr.other`
  stands for every remaining node kind (which the source handles only
  through `default:` cases).
* `go/types` type objects become `Ty`, carrying the canonical
  fully-qualified name (what `types.Type.String()` returns) and an
  `underlying` representation that the source never looks at.
* A nil `types.Type` interface value is `Option Ty = none`; calling a
  method on it panics, so functions that may do that return `Option`
  results, `none` meaning the scan panicked.
* The resolved-type table `pass.TypesInfo` is a partial map
  `Expr → Option Ty`; both the checked lookup `Types[e]` (line 61) and the
  possibly-nil `TypeOf(n)` (line 128) read it.
* The external pretty-printer `format.Node` is an injected partial
  function `render : Expr → Option String`, `none` meaning it errored;
  node positions `expr.Pos()` are an injected `posOf : Expr → Nat`.
-/

/-- Binary operator token (`expr.Op`); the source only tests `== token.MUL`. -/
inductive Op where
  | mul
  | add
  | sub
  | quo
deriving DecidableEq, Repr

/-- Go AST expression nodes, restricted to the shapes the source dispatches on. -/
inductive Expr where
  | basicLit (value : String)
  | binaryExpr (op : Op) (x y : Expr)
  | callExpr (fn : Expr) (args : List Expr)
  | selectorExpr (x : Expr) (sel : String)
  | ident (name : String)
  | other (tag : Nat)

/-- A resolved `go/types` type: `str` is the canonical fully-qualified name
returned by `String()`; `underlying` is the underlying representation,
which the source never inspects. -/
structure Ty where
  str : String
  underlying : String
deriving DecidableEq, Repr

/-- The `time.Duration` type object. -/
def durationTy : Ty := ⟨"time.Duration", "int64"⟩

/-- A `*types.Package`: we keep only the import paths (`pkg.Imports()`). -/
structure Pkg where
  imports : List String
deriving DecidableEq, Repr

/-- An emitted diagnostic: `pass.Reportf(pos, msg)`. -/
structure Diagnostic where
  pos : Nat
  message : String
deriving DecidableEq, Repr

/-- The per-unit analysis context (`*analysis.Pass`) plus the two external
collaborators the core calls into: the pretty-printer and node positions. -/
structure Pass where
  pkg : Pkg
  types : Expr → Option Ty
  file : Expr
  render : Expr → Option String
  posOf : Expr → Nat

/-- Embeds `hasImport` (lines 41-49): true iff some import path equals `importPath`. -/
def hasImport (pkg : Pkg) (importPath : String) : Bool :=
  pkg.imports.any (fun imp => imp == importPath)

/-- Embeds `isDuration` (lines 76-78): canonical-name comparison `x.String() == "time.Duration"`.
Takes a non-nil type; the caller that may hold nil is modelled at the call site. -/
def isDuration (x : Ty) : Bool :=
  x.str == "time.Duration"

/-- Embeds `isAcceptableCastArg` (lines 121-131). Result `none` models a Go panic:
in the `default:` branch, `pass.TypesInfo.TypeOf(n)` may return a nil
`types.Type`, and `isDuration` then calls `String()` on the nil interface.
Go `&&` short-circuits, so `e.Y` is not visited when `e.X` is unacceptable. -/
def isAcceptableCastArg (pass : Pass) : Expr → Option Bool
  | .basicLit _ => some true
  | .binaryExpr _ x y => do
      let bx ← isAcceptableCastArg pass x
      if bx then isAcceptableCastArg pass y else pure false
  | n =>
      match pass.types n with
      | some argType => some (!isDuration argType)
      | none => none

/-- Embeds `isAcceptableCast` (lines 92-119): single argument, acceptable argument,
and the callee is the selector `time.Duration`. -/
def isAcceptableCast (pass : Pass) (fn : Expr) (args : List Expr) : Option Bool :=
  match args with
  | [arg] => do
      let ok ← isAcceptableCastArg pass arg
      if !ok then pure false
      else
        match fn with
        | .selectorExpr (.ident pkgName) selName =>
            if pkgName != "time" then pure false
            else pure (selName == "Duration")
        | _ => pure false
  | _ => some false

/-- Embeds `isUnacceptableExpr` (lines 81-89): literals are acceptable, calls are
acceptable iff they are an acceptable cast, everything else is unacceptable. -/
def isUnacceptableExpr (pass : Pass) (expr : Expr) : Option Bool :=
  match expr with
  | .basicLit _ => some false
  | .callExpr fn args => (isAcceptableCast pass fn args).map (fun b => !b)
  | _ => some true

/-- Embeds `formatNode` (lines 133-141): on a `format.Node` error, log and return `""`. -/
def formatNode (render : Expr → Option String) (node : Expr) : String :=
  match render node with
  | some s => s
  | none => ""

/-- The diagnostic built at line 70:
`pass.Reportf(expr.Pos(), "Multiplication of durations: <backtick>%s<backtick>", formatNode(expr))`. -/
def mkDiagnostic (pass : Pass) (expr : Expr) : Diagnostic :=
  ⟨pass.posOf expr, "Multiplication of durations: `" ++ formatNode pass.render expr ++ "`"⟩

/-- Embeds `check` (lines 52-74) applied to one node delivered by the inspector.
Returns the diagnostics the node produces; `none` models a panic inside the
operand classification. Go `&&` at line 69 short-circuits. -/
def check (pass : Pass) (node : Expr) : Option (List Diagnostic) :=
  match node with
  | .binaryExpr op x y =>
      if op != Op.mul then some []
      else
        match pass.types x, pass.types y with
        | some tx, some ty =>
            if isDuration tx && isDuration ty then do
              let ux ← isUnacceptableExpr pass x
              if ux then do
                let uy ← isUnacceptableExpr pass y
                if uy then pure [mkDiagnostic pass (.binaryExpr op x y)]
                else pure []
              else pure []
            else some []
        | _, _ => some []
  | _ => some []

mutual

/-- Node order of `ast.Inspector.Preorder`: each node before its children,
children left to right (`X` then `Y`; `Fun` then `Args`). -/
def preorder : Expr → List Expr
  | .basicLit v => [.basicLit v]
  | .binaryExpr op x y => .binaryExpr op x y :: (preorder x ++ preorder y)
  | .callExpr fn args => .callExpr fn args :: (preorder fn ++ preorderList args)
  | .selectorExpr x s => .selectorExpr x s :: preorder x
  | .ident n => [.ident n]
  | .other t => [.other t]

/-- Preorder traversal of a list of sibling subtrees, left to right. -/
def preorderList : List Expr → List Expr
  | [] => []
  | e :: es => preorder e ++ preorderList es

end

/-- Running `check` over a list of inspector-delivered nodes, concatenating
the diagnostics in order; the first panic aborts the scan. -/
def scanNodes (pass : Pass) : List Expr → Option (List Diagnostic)
  | [] => some []
  | n :: rest => do
      let ds ← check pass n
      let rest' ← scanNodes pass rest
      pure (ds ++ rest')

/-- Embeds the `nodeTypes` filter (lines 33-35): the inspector delivers only
`*ast.BinaryExpr` nodes. -/
def isBinaryNode : Expr → Bool
  | .binaryExpr _ _ _ => true
  | _ => false

/-- Embeds `inspect.Preorder(nodeTypes, check(pass))` (line 37): the full scan of
one compiled unit, without the import gate. -/
def runScan (pass : Pass) : Option (List Diagnostic) :=
  scanNodes pass ((preorder pass.file).filter isBinaryNode)

/-- Embeds `run` (lines 25-39): skip the whole scan when the package does
not import `time`; otherwise scan every binary expression. -/
def run (pass : Pass) : Option (List Diagnostic) :=
  if !hasImport pass.pkg "time" then some []
  else runScan pass

/-- Expression kinds that fall into the `default:` branch of
`isAcceptableCastArg` (everything except `*ast.BasicLit` and `*ast.BinaryExpr`). -/
def isCastArgDefault : Expr → Bool
  | .basicLit _ => false
  | .binaryExpr _ _ _ => false
  | _ => true

/-- Expression kinds that fall into the implicit default of
`isUnacceptableExpr` (everything except `*ast.BasicLit` and `*ast.CallExpr`). -/
def isDefaultOperand : Expr → Bool
  | .basicLit _ => false
  | .callExpr _ _ => false
  | _ => true

/-- A node is flagged when it is a multiplication whose operands both have
Duration-typed bindings and both classify as unacceptable: exactly the
condition under which `check` (lines 56-71) reports. -/
def flagged (pass : Pass) : Expr → Bool
  | .binaryExpr op x y =>
      op == Op.mul &&
      (match pass.types x, pass.types y with
       | some tx, some ty =>
           isDuration tx && isDuration ty &&
           decide (isUnacceptableExpr pass x = some true) &&
           decide (isUnacceptableExpr pass y = some true)
       | _, _ => false)
  | _ => false

/-- Resolved-type table of the demo unit `a * b`: two plain
Duration-typed identifiers. -/
def demoTypes : Expr → Option Ty
  | .ident "a" => some durationTy
  | .ident "b" => some durationTy
  | _ => none

/-- Demo unit whose file is the multiplication `a * b` of two plain
Duration-typed identifiers, with a working pretty-printer. -/
def demoPass : Pass :=
  ⟨⟨["time"]⟩, demoTypes, .binaryExpr .mul (.ident "a") (.ident "b"),
    fun _ => some "a * b", fun _ => 42⟩

/-- Demo unit identical to `demoPass` except that the pretty-printer
fails on every node. -/
def demoPassNoRender : Pass :=
  ⟨⟨["time"]⟩, demoTypes, .binaryExpr .mul (.ident "a") (.ident "b"),
    fun _ => none, fun _ => 42⟩

/-- Resolved-type table for the panic unit: the identifier and the cast
call are Duration-typed, but the cast argument `Expr.other 0` has no
binding at all. -/
def panicTypes : Expr → Option Ty
  | .ident "d" => some durationTy
  | .callExpr (.selectorExpr (.ident "time") "Duration") [.other 0] => some durationTy
  | _ => none

/-- A unit whose file is `d * time.Duration(u)` where `u` is a node with
no resolved-type binding: evaluating the cast argument calls
`isDuration` on a nil type. -/
def panicPass : Pass :=
  ⟨⟨["time"]⟩, panicTypes,
    .binaryExpr .mul (.ident "d")
      (.callExpr (.selectorExpr (.ident "time") "Duration") [.other 0]),
    fun _ => none, fun _ => 0⟩

/-- A unit that does not import `time` and has an empty resolved-type
table, as the front end guarantees for such units. -/
def noTimePass : Pass :=
  ⟨⟨["fmt", "os"]⟩, fun _ => none,
    .binaryExpr .mul (.ident "a") (.ident "b"),
    fun _ => none, fun _ => 0⟩

/-- Resolved-type table of the nested unit `(a * b) * c`: the three
identifiers and the inner product are all Duration-typed. -/
def nestedTypes : Expr → Option Ty
  | .ident "a" => some durationTy
  | .ident "b" => some durationTy
  | .ident "c" => some durationTy
  | .binaryExpr .mul (.ident "a") (.ident "b") => some durationTy
  | _ => none

/-- Pretty-printer for the nested unit. -/
def nestedRender : Expr → Option String
  | .binaryExpr .mul (.ident "a") (.ident "b") => some "a * b"
  | .binaryExpr .mul (.binaryExpr .mul (.ident "a") (.ident "b")) (.ident "c") =>
      some "(a * b) * c"
  | _ => none

/-- Node positions for the nested unit: the outer product starts at
offset 1, the inner one at offset 2 (inside the parenthesis). -/
def nestedPos : Expr → Nat
  | .binaryExpr .mul (.ident "a") (.ident "b") => 2
  | _ => 1

/-- A unit whose file is the nested multiplication `(a * b) * c` of three
plain Duration-typed identifiers. -/
def nestedPass : Pass :=
  ⟨⟨["time"]⟩, nestedTypes,
    .binaryExpr .mul (.binaryExpr .mul (.ident "a") (.ident "b")) (.ident "c"),
    nestedRender, nestedPos⟩

/-- Classification of a cast argument reads the pass only through its
resolved-type table. -/
theorem castArg_congr (p₁ p₂ : Pass) (h : p₁.types = p₂.types) :
    ∀ n, isAcceptableCastArg p₁ n = isAcceptableCastArg p₂ n
  | .basicLit _ => rfl
  | .binaryExpr op x y => by
      simp only [isAcceptableCastArg, castArg_congr p₁ p₂ h x, castArg_congr p₁ p₂ h y]
  | .callExpr _ _ => by simp only [isAcceptableCastArg, h]
  | .selectorExpr _ _ => by simp only [isAcceptableCastArg, h]
  | .ident _ => by simp only [isAcceptableCastArg, h]
  | .other _ => by simp only [isAcceptableCastArg, h]

/-- Classification of a conversion call reads the pass only through its
resolved-type table. -/
theorem cast_congr (p₁ p₂ : Pass) (h : p₁.types = p₂.types) (fn : Expr) :
    ∀ args, isAcceptableCast p₁ fn args = isAcceptableCast p₂ fn args
  | [] => rfl
  | [a] => by simp only [isAcceptableCast, castArg_congr p₁ p₂ h a]
  | _ :: _ :: _ => rfl

/-- Classification of a multiplication operand reads the pass only through
its resolved-type table. -/
theorem unacceptable_congr (p₁ p₂ : Pass) (h : p₁.types = p₂.types) :
    ∀ e, isUnacceptableExpr p₁ e = isUnacceptableExpr p₂ e
  | .basicLit _ => rfl
  | .binaryExpr _ _ _ => rfl
  | .callExpr fn args => by simp only [isUnacceptableExpr, cast_congr p₁ p₂ h fn args]
  | .selectorExpr _ _ => rfl
  | .ident _ => rfl
  | .other _ => rfl

/-- Whether a node is flagged reads the pass only through its resolved-type
table. -/
theorem flagged_congr (p₁ p₂ : Pass) (h : p₁.types = p₂.types) :
    flagged p₁ = flagged p₂ := by
  funext e
  cases e with
  | binaryExpr op x y =>
      simp only [flagged, h, unacceptable_congr p₁ p₂ h x, unacceptable_congr p₁ p₂ h y]
  | _ => rfl

/-- When no binding in the table is Duration-typed, `check` reports nothing
on any node (and cannot panic, since classification is never reached). -/
theorem check_no_duration (pass : Pass)
    (h : ∀ e t, pass.types e = some t → isDuration t = false) :
    ∀ n, check pass n = some []
  | .basicLit _ => rfl
  | .selectorExpr _ _ => rfl
  | .ident _ => rfl
  | .other _ => rfl
  | .callExpr _ _ => rfl
  | .binaryExpr op x y => by
      simp only [check]
      split
      · rfl
      · split
        · next tx ty hx hy => rw [h _ _ hx]; simp
        · rfl

/-- When no binding in the table is Duration-typed, the whole scan of any
node list reports nothing. -/
theorem scanNodes_no_duration (pass : Pass)
    (h : ∀ e t, pass.types e = some t → isDuration t = false) :
    ∀ ns, scanNodes pass ns = some []
  | [] => rfl
  | n :: rest => by
      simp only [scanNodes, check_no_duration pass h n, scanNodes_no_duration pass h rest]
      rfl

/-- Every list of diagnostics `check` returns is either empty or the single
diagnostic built from the inspected node. -/
theorem check_cases (pass : Pass) (node : Expr) (ds : List Diagnostic)
    (h : check pass node = some ds) :
    ds = [] ∨ ds = [mkDiagnostic pass node] := by
  cases node with
  | binaryExpr op x y =>
      simp only [check] at h
      split at h
      · exact Or.inl (Option.some.inj h).symm
      · split at h
        · split at h
          · cases hux : isUnacceptableExpr pass x with
            | none => rw [hux] at h; exact absurd h (by simp)
            | some ux =>
                rw [hux] at h
                cases ux with
                | false => exact Or.inl (Option.some.inj h).symm
                | true =>
                    cases huy : isUnacceptableExpr pass y with
                    | none => rw [huy] at h; exact absurd h (by simp)
                    | some uy =>
                        rw [huy] at h
                        cases uy with
                        | false => exact Or.inl (Option.some.inj h).symm
                        | true => exact Or.inr (Option.some.inj h).symm
          · exact Or.inl (Option.some.inj h).symm
        · exact Or.inl (Option.some.inj h).symm
  | basicLit v => exact Or.inl (Option.some.inj h).symm
  | callExpr fn args => exact Or.inl (Option.some.inj h).symm
  | selectorExpr x s => exact Or.inl (Option.some.inj h).symm
  | ident n => exact Or.inl (Option.some.inj h).symm
  | other t => exact Or.inl (Option.some.inj h).symm

/-- Length of what `check` returns: one diagnostic on a flagged node, zero
otherwise. -/
theorem check_flagged_length (pass : Pass) (node : Expr) (ds : List Diagnostic)
    (h : check pass node = some ds) :
    ds.length = if flagged pass node then 1 else 0 := by
  cases node with
  | binaryExpr op x y =>
      simp only [check] at h
      split at h
      · next hcond =>
          cases h
          have hbe : (op == Op.mul) = false := by
            cases hb : (op == Op.mul) <;> simp [bne, hb] at hcond ⊢
          simp [flagged, hbe]
      · next hcond =>
          have hbe : (op == Op.mul) = true := by
            cases hb : (op == Op.mul) <;> simp [bne, hb] at hcond ⊢
          split at h
          · next tx ty hx hy =>
              simp only [flagged, hx, hy, hbe, Bool.true_and]
              split at h
              · next hdur =>
                  cases hux : isUnacceptableExpr pass x with
                  | none => rw [hux] at h; simp at h
                  | some ux =>
                      rw [hux] at h
                      cases ux with
                      | false =>
                          simp at h
                          cases h
                          simp [hdur, hux]
                      | true =>
                          cases huy : isUnacceptableExpr pass y with
                          | none => rw [huy] at h; simp at h
                          | some uy =>
                              rw [huy] at h
                              cases uy with
                              | false =>
                                  simp at h
                                  cases h
                                  simp [hdur, hux, huy]
                              | true =>
                                  simp at h
                                  cases h
                                  simp [hdur, hux, huy]
              · next hdur =>
                  cases h
                  have : (isDuration tx && isDuration ty) = false := by
                    cases hd : (isDuration tx && isDuration ty) <;> simp [hd] at hdur ⊢
                  rcases Bool.and_eq_false_iff.mp this with h1 | h1 <;> simp [h1]
          · next hne =>
              cases h
              cases hx : pass.types x <;> cases hy : pass.types y <;> simp [flagged, hx, hy]
              exact absurd (hne _ _ hx hy) (fun f => f)
  | basicLit v => cases h; simp [flagged]
  | callExpr fn args => cases h; simp [flagged]
  | selectorExpr x s => cases h; simp [flagged]
  | ident n => cases h; simp [flagged]
  | other t => cases h; simp [flagged]

/-- Length of a successful scan over a node list: the number of flagged
nodes in the list. -/
theorem scanNodes_flagged_count (pass : Pass) :
    ∀ (ns : List Expr) (ds : List Diagnostic), scanNodes pass ns = some ds →
      ds.length = ns.countP (flagged pass)
  | [], ds, h => by cases h; simp
  | n :: rest, ds, h => by
      simp only [scanNodes] at h
      cases hc : check pass n with
      | none => rw [hc] at h; simp at h
      | some ds₁ =>
          rw [hc] at h
          cases hrest : scanNodes pass rest with
          | none => rw [hrest] at h; simp at h
          | some ds₂ =>
              rw [hrest] at h
              simp at h
              cases h
              have h₁ := check_flagged_length pass n ds₁ hc
              have h₂ := scanNodes_flagged_count pass rest ds₂ hrest
              simp [List.countP_cons, h₁, h₂]
              cases hf : flagged pass n <;> simp [hf]
              omega

/-- Filtering out non-binary nodes does not change the number of flagged
nodes: every flagged node is a binary expression. -/
theorem countP_flagged_filter_binary (pass : Pass) :
    ∀ l : List Expr, (l.filter isBinaryNode).countP (flagged pass) = l.countP (flagged pass)
  | [] => rfl
  | e :: rest => by
      have ih := countP_flagged_filter_binary pass rest
      cases e <;> simp [List.filter_cons, List.countP_cons, isBinaryNode, flagged, ih]

/-- Whether a multiplication node is flagged does not depend on the order of
its two operands. -/
theorem flagged_swap (pass : Pass) (op : Op) (x y : Expr) :
    flagged pass (.binaryExpr op x y) = flagged pass (.binaryExpr op y x) := by
  simp only [flagged]
  cases hx : pass.types x <;> cases hy : pass.types y <;> simp [hx, hy]
  cases isDuration _ <;> cases isDuration _ <;>
    cases hdx : decide (isUnacceptableExpr pass x = some true) <;>
    cases hdy : decide (isUnacceptableExpr pass y = some true) <;>
    simp [hdx, hdy]

/-- C1: for a binary multiplication whose two operands both have
resolved-type bindings equal to the Duration type, `check` reports exactly
one diagnostic when both operands classify as unacceptable and none when at
least one operand is acceptable. -/
theorem c1_both_unacceptable_policy (pass : Pass) (x y : Expr) (tx ty : Ty)
    (ux uy : Bool)
    (hx : pass.types x = some tx) (hy : pass.types y = some ty)
    (hdx : isDuration tx = true) (hdy : isDuration ty = true)
    (hux : isUnacceptableExpr pass x = some ux)
    (huy : isUnacceptableExpr pass y = some uy) :
    check pass (.binaryExpr .mul x y) =
      some (if ux && uy then [mkDiagnostic pass (.binaryExpr .mul x y)] else []) ∧
    (check pass (.binaryExpr .mul x y) =
        some [mkDiagnostic pass (.binaryExpr .mul x y)] ↔ (ux = true ∧ uy = true)) := by
  have hmain : check pass (.binaryExpr .mul x y) =
      some (if ux && uy then [mkDiagnostic pass (.binaryExpr .mul x y)] else []) := by
    simp only [check, hx, hy, hdx, hdy]
    cases ux <;> cases uy <;> simp [hux, huy]
  refine ⟨hmain, ?_⟩
  rw [hmain]
  cases ux <;> cases uy <;> simp

/-- Witness for C1 on the unit `a * b` with two plain Duration-typed
identifiers: one diagnostic is reported. -/
theorem c1_witness :
    check demoPass (.binaryExpr .mul (.ident "a") (.ident "b")) =
      some [mkDiagnostic demoPass (.binaryExpr .mul (.ident "a") (.ident "b"))] := by
  have h := (c1_both_unacceptable_policy demoPass (.ident "a") (.ident "b")
    durationTy durationTy true true rfl rfl rfl rfl rfl rfl).1
  simpa using h

/-- C2 fails on the code: on the unit `d * time.Duration(u)` where the cast
argument `u` has no resolved-type binding, the cast-argument classifier is
not total — `TypeOf` returns a nil type and `isDuration` dereferences it,
so the whole scan aborts (`none`) instead of skipping the node. -/
theorem c2_missing_binding_panics :
    panicPass.types (.other 0) = none ∧
    isAcceptableCastArg panicPass (.other 0) = none ∧
    runScan panicPass = none ∧
    run panicPass = none :=
  ⟨rfl, rfl, rfl, rfl⟩

/-- C3: with the front-end guarantee that a unit not importing the
time-handling module has no Duration-typed bindings at all, the gated run
produces exactly the diagnostics of the full ungated scan. -/
theorem c3_gate_refinement (pass : Pass)
    (h : hasImport pass.pkg "time" = false →
      ∀ e t, pass.types e = some t → isDuration t = false) :
    run pass = runScan pass := by
  by_cases hi : hasImport pass.pkg "time"
  · simp [run, hi]
  · have h' := h (by simpa using hi)
    simp [run, hi, runScan, scanNodes_no_duration pass h']

/-- Witness for C3 on a unit importing only `fmt` and `os`, with an empty
resolved-type table. -/
theorem c3_witness : run noTimePass = runScan noTimePass :=
  c3_gate_refinement noTimePass (fun _ e t ht => by cases ht)

/-- C4: a call classifies as a legitimate duration conversion iff it has
exactly one argument, that argument passes the cast-argument classification,
and the callee is the selector `time.Duration`; and whenever the
classification fails (returns `false`), the call operand is unacceptable. -/
theorem c4_conversion_call_iff (pass : Pass) (fn : Expr) (args : List Expr) :
    (isAcceptableCast pass fn args = some true ↔
      ((∃ a, args = [a] ∧ isAcceptableCastArg pass a = some true) ∧
        fn = .selectorExpr (.ident "time") "Duration")) ∧
    (isAcceptableCast pass fn args = some false →
      isUnacceptableExpr pass (.callExpr fn args) = some true) := by
  constructor
  · match args with
    | [] => simp [isAcceptableCast]
    | _ :: _ :: _ => simp [isAcceptableCast]
    | [a] =>
        simp only [isAcceptableCast]
        cases ha : isAcceptableCastArg pass a with
        | none => simp [ha]
        | some b =>
            cases b with
            | false => simp [ha]
            | true =>
                match fn with
                | .selectorExpr (.ident pkgName) selName =>
                    by_cases hpkg : pkgName = "time" <;>
                      by_cases hsel : selName = "Duration" <;>
                      simp [ha, hpkg, hsel]
                | .basicLit _ => simp [ha]
                | .binaryExpr _ _ _ => simp [ha]
                | .callExpr _ _ => simp [ha]
                | .selectorExpr (.basicLit _) _ => simp [ha]
                | .selectorExpr (.binaryExpr _ _ _) _ => simp [ha]
                | .selectorExpr (.callExpr _ _) _ => simp [ha]
                | .selectorExpr (.selectorExpr _ _) _ => simp [ha]
                | .selectorExpr (.other _) _ => simp [ha]
                | .ident _ => simp [ha]
                | .other _ => simp [ha]
  · intro h
    simp [isUnacceptableExpr, h]

/-- Witness for C4: `time.Duration(10)` is a legitimate conversion, and the
non-conversion call `f(a)` makes the operand unacceptable. -/
theorem c4_witness :
    (isAcceptableCast demoPass (.selectorExpr (.ident "time") "Duration")
        [.basicLit "10"] = some true ↔
      ((∃ a, ([Expr.basicLit "10"] : List Expr) = [a] ∧
          isAcceptableCastArg demoPass a = some true) ∧
        (Expr.selectorExpr (.ident "time") "Duration" =
          .selectorExpr (.ident "time") "Duration"))) ∧
    isUnacceptableExpr demoPass (.callExpr (.ident "f") [.ident "a"]) = some true :=
  ⟨(c4_conversion_call_iff demoPass (.selectorExpr (.ident "time") "Duration")
      [.basicLit "10"]).1,
    (c4_conversion_call_iff demoPass (.ident "f") [.ident "a"]).2 rfl⟩

/-- C5: the cast-argument classifier on each argument shape: a literal is
safe unconditionally; a binary operation is safe iff both operands are
recursively safe; every other kind with a resolved-type binding is safe iff
that type is not the Duration type. -/
theorem c5_cast_arg_classification (pass : Pass) :
    (∀ v, isAcceptableCastArg pass (.basicLit v) = some true) ∧
    (∀ op x y, isAcceptableCastArg pass (.binaryExpr op x y) = some true ↔
        (isAcceptableCastArg pass x = some true ∧
          isAcceptableCastArg pass y = some true)) ∧
    (∀ n t, isCastArgDefault n = true → pass.types n = some t →
        isAcceptableCastArg pass n = some (!isDuration t)) := by
  refine ⟨fun v => rfl, fun op x y => ?_, fun n t hk ht => ?_⟩
  · simp only [isAcceptableCastArg]
    cases hx : isAcceptableCastArg pass x with
    | none => simp [hx]
    | some bx => cases bx <;> simp [hx]
  · match n, hk with
    | .callExpr _ _, _ => simp [isAcceptableCastArg, ht]
    | .selectorExpr _ _, _ => simp [isAcceptableCastArg, ht]
    | .ident _, _ => simp [isAcceptableCastArg, ht]
    | .other _, _ => simp [isAcceptableCastArg, ht]

/-- Witness for C5: the literal `10`, the all-literal product `10 * 60`, and
the Duration-typed identifier `a` (unsafe). -/
theorem c5_witness :
    isAcceptableCastArg demoPass (.basicLit "10") = some true ∧
    (isAcceptableCastArg demoPass
        (.binaryExpr .mul (.basicLit "10") (.basicLit "60")) = some true ↔
      (isAcceptableCastArg demoPass (.basicLit "10") = some true ∧
        isAcceptableCastArg demoPass (.basicLit "60") = some true)) ∧
    isAcceptableCastArg demoPass (.ident "a") = some (!isDuration durationTy) :=
  ⟨(c5_cast_arg_classification demoPass).1 "10",
    (c5_cast_arg_classification demoPass).2.1 .mul (.basicLit "10") (.basicLit "60"),
    (c5_cast_arg_classification demoPass).2.2 (.ident "a") durationTy rfl rfl⟩

/-- C6: the unacceptable-operand classification is the closed three-way
split: a literal is acceptable, a call is acceptable exactly when it is an
acceptable cast, and every other expression kind is unacceptable. -/
theorem c6_operand_three_way (pass : Pass) :
    (∀ v, isUnacceptableExpr pass (.basicLit v) = some false) ∧
    (∀ fn args b, isAcceptableCast pass fn args = some b →
        isUnacceptableExpr pass (.callExpr fn args) = some (!b)) ∧
    (∀ n, isDefaultOperand n = true → isUnacceptableExpr pass n = some true) := by
  refine ⟨fun v => rfl, fun fn args b h => by simp [isUnacceptableExpr, h],
    fun n hk => ?_⟩
  match n, hk with
  | .binaryExpr _ _ _, _ => rfl
  | .selectorExpr _ _, _ => rfl
  | .ident _, _ => rfl
  | .other _, _ => rfl

/-- Witness for C6: a literal, the conversion call `time.Duration(10)`, and
an identifier. -/
theorem c6_witness :
    isUnacceptableExpr demoPass (.basicLit "5") = some false ∧
    isUnacceptableExpr demoPass
      (.callExpr (.selectorExpr (.ident "time") "Duration") [.basicLit "10"]) =
        some false ∧
    isUnacceptableExpr demoPass (.ident "a") = some true := by
  refine ⟨(c6_operand_three_way demoPass).1 "5", ?_,
    (c6_operand_three_way demoPass).2.2 (.ident "a") rfl⟩
  have h := (c6_operand_three_way demoPass).2.1
    (.selectorExpr (.ident "time") "Duration") [.basicLit "10"] true rfl
  simpa using h

/-- C7: Duration-type identity is canonical-name equality: it depends only
on the type's canonical fully-qualified name (never on the underlying
representation), any type whose canonical name is `time.Duration` — such as
an alias — is the Duration type, and any distinctly named type is not, even
with the same underlying representation. -/
theorem c7_duration_by_name :
    (∀ t₁ t₂ : Ty, t₁.str = t₂.str → isDuration t₁ = isDuration t₂) ∧
    (∀ u, isDuration ⟨"time.Duration", u⟩ = true) ∧
    (∀ s u, s ≠ "time.Duration" → isDuration ⟨s, u⟩ = false) :=
  ⟨fun t₁ t₂ h => by simp [isDuration, h],
    fun u => by simp [isDuration],
    fun s u h => by simp [isDuration, h]⟩

/-- Witness for C7: an alias of `time.Duration` with a different recorded
underlying form is a duration; a distinct named type over the same `int64`
underlying form is not. -/
theorem c7_witness :
    isDuration ⟨"time.Duration", "int64 alias"⟩ = true ∧
    isDuration ⟨"main.MyDuration", "int64"⟩ = false :=
  ⟨c7_duration_by_name.2.1 "int64 alias",
    c7_duration_by_name.2.2 "main.MyDuration" "int64" (by decide)⟩

/-- C8: every diagnostic `check` emits carries the position of the flagged
multiplication node and the fixed message built from the rendered source
text; when the pretty-printer fails, the rendered text is the empty string
and the diagnostic is still built the same way. -/
theorem c8_diagnostic_shape :
    (∀ (pass : Pass) (node : Expr) (ds : List Diagnostic) (d : Diagnostic),
        check pass node = some ds → d ∈ ds →
        d.pos = pass.posOf node ∧
        d.message =
          "Multiplication of durations: `" ++ formatNode pass.render node ++ "`") ∧
    (∀ (render : Expr → Option String) (n : Expr),
        render n = none → formatNode render n = "") := by
  constructor
  · intro pass node ds d hck hd
    rcases check_cases pass node ds hck with rfl | rfl
    · cases hd
    · rcases List.mem_singleton.mp hd with rfl
      exact ⟨rfl, rfl⟩
  · intro render n h
    simp [formatNode, h]

/-- Witness for C8 on the unit `a * b` whose pretty-printer fails on every
node: the diagnostic is still emitted, with an empty rendered text. -/
theorem c8_witness :
    ((mkDiagnostic demoPassNoRender demoPassNoRender.file).pos =
        demoPassNoRender.posOf demoPassNoRender.file ∧
      (mkDiagnostic demoPassNoRender demoPassNoRender.file).message =
        "Multiplication of durations: `" ++
          formatNode demoPassNoRender.render demoPassNoRender.file ++ "`") ∧
    formatNode demoPassNoRender.render demoPassNoRender.file = "" :=
  ⟨c8_diagnostic_shape.1 demoPassNoRender demoPassNoRender.file
      [mkDiagnostic demoPassNoRender demoPassNoRender.file]
      (mkDiagnostic demoPassNoRender demoPassNoRender.file) rfl (by simp),
    c8_diagnostic_shape.2 demoPassNoRender.render demoPassNoRender.file rfl⟩

/-- C9: a successful scan produces exactly as many diagnostics as there are
flagged multiplication nodes in the tree, and the count is unchanged when
the two operand subtrees of any binary node at the root are exchanged. -/
theorem c9_count_diagnostics :
    (∀ (pass : Pass) (ds : List Diagnostic), runScan pass = some ds →
        ds.length = (preorder pass.file).countP (flagged pass)) ∧
    (∀ (pass : Pass) (op : Op) (x y : Expr) (ds₁ ds₂ : List Diagnostic),
        runScan { pass with file := .binaryExpr op x y } = some ds₁ →
        runScan { pass with file := .binaryExpr op y x } = some ds₂ →
        ds₁.length = ds₂.length) := by
  have part1 : ∀ (pass : Pass) (ds : List Diagnostic), runScan pass = some ds →
      ds.length = (preorder pass.file).countP (flagged pass) := by
    intro pass ds h
    have hlen := scanNodes_flagged_count pass _ ds h
    rwa [countP_flagged_filter_binary] at hlen
  refine ⟨part1, ?_⟩
  intro pass op x y ds₁ ds₂ h₁ h₂
  rw [part1 _ _ h₁, part1 _ _ h₂]
  have hty : ({ pass with file := .binaryExpr op x y } : Pass).types =
      ({ pass with file := .binaryExpr op y x } : Pass).types := rfl
  rw [flagged_congr _ _ hty]
  simp only [preorder, List.countP_cons, List.countP_append]
  rw [flagged_swap]
  omega

/-- Witness for C9 on the unit `a * b`: one diagnostic, one flagged node,
and operand exchange preserves the count. -/
theorem c9_witness :
    ([Diagnostic.mk 42 "Multiplication of durations: `a * b`"].length =
      (preorder demoPass.file).countP (flagged demoPass)) ∧
    ([Diagnostic.mk 42 "Multiplication of durations: `a * b`"].length =
      [Diagnostic.mk 42 "Multiplication of durations: `a * b`"].length) :=
  ⟨c9_count_diagnostics.1 demoPass _ rfl,
    c9_count_diagnostics.2 demoPass .mul (.ident "a") (.ident "b") _ _ rfl rfl⟩

/-- C10: on the nested multiplication `(a * b) * c` of three plain
Duration-typed identifiers, both the outer and the inner product are
flagged, yielding two overlapping diagnostics for the one fragment, outer
first in preorder. -/
theorem c10_nested_double_report :
    runScan nestedPass =
      some [⟨1, "Multiplication of durations: `(a * b) * c`"⟩,
        ⟨2, "Multiplication of durations: `a * b`"⟩] := rfl
